import Mathlib

/-!
# Verification of the stremf NuScenes import pipeline

A shallow embedding of the `stremf` NuScenes schema importer
(`src/schema/nuscenes.rs` and its submodules) in Lean 4, together with
theorems settling the specification claims about it.

Modelling conventions:

* All `f64` arithmetic is modelled over `ℚ` (exact real-number semantics on
  the rational inputs every theorem and witness uses; no floating-point
  rounding is modelled).  Division by zero in `ℚ` is the junk value `0`; no
  theorem below depends on a division-by-zero case.
* nalgebra `UnitQuaternion::from_quaternion` normalizes by the Euclidean
  norm (a square root).  We embed the normalization with an exact rational
  square root `ratSqrt`, which agrees with the real square root whenever the
  squared norm is a square of a rational — in particular on every unit
  quaternion (`normSq = 1`), which is the domain all geometric theorems and
  witnesses below use.
* Rust `HashMap` indices built by `collect` keep the last record for a
  duplicated token; lookups are embedded as `indexBy` (last match wins).
  `HashMap` iteration order for the scene map is unspecified in Rust; the
  embedding processes scenes in input-list order, and no claim depends on
  that order.
* A Rust panic (`Option::unwrap` on `None`) is embedded as `Except.error`
  carrying a `PanicKind` naming the unwrap site; a normal return is
  `Except.ok`.  The real `import` function's `Result` error path is only
  reachable from file I/O and serde decoding, which are upstream of the
  in-memory pipeline embedded here.
-/

/-- Exact rational square root: for a nonnegative rational that is a square
of a rational (numerator and denominator both perfect squares in lowest
terms) this is that square root; elsewhere it is an unspecified junk value.
It stands in for the real square root used by nalgebra norm computations;
every evaluation in this development happens at arguments where the two
agree (`ratSqrt 1 = 1`). -/
def ratSqrt (x : ℚ) : ℚ :=
  (Nat.sqrt x.num.toNat : ℚ) / (Nat.sqrt x.den : ℚ)

theorem ratSqrt_one : ratSqrt 1 = 1 := by norm_num [ratSqrt]

/-- A 3-vector of `f64`, modelled over `ℚ`. -/
structure Vec3 where
  x : ℚ
  y : ℚ
  z : ℚ
deriving DecidableEq, Repr

namespace Vec3

def add (a b : Vec3) : Vec3 := ⟨a.x + b.x, a.y + b.y, a.z + b.z⟩

def neg (a : Vec3) : Vec3 := ⟨-a.x, -a.y, -a.z⟩

def sub (a b : Vec3) : Vec3 := ⟨a.x - b.x, a.y - b.y, a.z - b.z⟩

theorem add_neg_eq_sub (a b : Vec3) : a.add b.neg = a.sub b := by
  simp [add, neg, sub, sub_eq_add_neg]

theorem ext3 (a b : Vec3) (h1 : a.x = b.x) (h2 : a.y = b.y)
    (h3 : a.z = b.z) : a = b := by
  cases a
  cases b
  simp_all

theorem add_neg_add_cancel (a b : Vec3) : (a.add b.neg).add b = a := by
  apply ext3 <;> simp only [add, neg] <;> ring

end Vec3

/-- A quaternion with components stored in `(w, x, y, z)` order, the storage
order of the NuScenes `rotation` arrays and of `nalgebra::Quaternion::new`. -/
structure Quat where
  w : ℚ
  x : ℚ
  y : ℚ
  z : ℚ
deriving DecidableEq, Repr

namespace Quat

/-- Hamilton product, as implemented by nalgebra `Quaternion` `Mul`. -/
def mul (p q : Quat) : Quat :=
  ⟨p.w * q.w - p.x * q.x - p.y * q.y - p.z * q.z,
   p.w * q.x + p.x * q.w + p.y * q.z - p.z * q.y,
   p.w * q.y - p.x * q.z + p.y * q.w + p.z * q.x,
   p.w * q.z + p.x * q.y - p.y * q.x + p.z * q.w⟩

/-- Conjugate; for a unit quaternion this is `UnitQuaternion::inverse`. -/
def conj (q : Quat) : Quat := ⟨q.w, -q.x, -q.y, -q.z⟩

/-- Squared Euclidean norm. -/
def normSq (q : Quat) : ℚ := q.w ^ 2 + q.x ^ 2 + q.y ^ 2 + q.z ^ 2

/-- `UnitQuaternion::from_quaternion`: divide by the Euclidean norm.  The
norm is `ratSqrt normSq` (exact on every unit quaternion, where it is `1`). -/
def normalize (q : Quat) : Quat :=
  let n := ratSqrt q.normSq
  ⟨q.w / n, q.x / n, q.y / n, q.z / n⟩

theorem normalize_of_normSq_one {q : Quat} (h : q.normSq = 1) :
    q.normalize = q := by
  simp [normalize, h, ratSqrt_one]

theorem normSq_mul (p q : Quat) : (p.mul q).normSq = p.normSq * q.normSq := by
  simp only [mul, normSq]
  ring

theorem normSq_conj (q : Quat) : q.conj.normSq = q.normSq := by
  simp only [conj, normSq]
  ring

theorem mul_conj_self (q : Quat) : q.mul q.conj = ⟨q.normSq, 0, 0, 0⟩ := by
  simp only [mul, conj, normSq, Quat.mk.injEq]
  refine ⟨by ring, by ring, by ring, by ring⟩

theorem mul_assoc (p q r : Quat) : (p.mul q).mul r = p.mul (q.mul r) := by
  simp only [mul, Quat.mk.injEq]
  refine ⟨by ring, by ring, by ring, by ring⟩

theorem one_mul (q : Quat) : (Quat.mk 1 0 0 0).mul q = q := by
  simp [mul]

end Quat

/-- A 3×3 matrix of `f64`, modelled over `ℚ`, row-major fields. -/
structure Mat3 where
  m00 : ℚ
  m01 : ℚ
  m02 : ℚ
  m10 : ℚ
  m11 : ℚ
  m12 : ℚ
  m20 : ℚ
  m21 : ℚ
  m22 : ℚ
deriving DecidableEq, Repr

namespace Mat3

def mulVec (m : Mat3) (v : Vec3) : Vec3 :=
  ⟨m.m00 * v.x + m.m01 * v.y + m.m02 * v.z,
   m.m10 * v.x + m.m11 * v.y + m.m12 * v.z,
   m.m20 * v.x + m.m21 * v.y + m.m22 * v.z⟩

theorem mulVec_add (m : Mat3) (a b : Vec3) :
    (m.mulVec a).add (m.mulVec b) = m.mulVec (a.add b) := by
  simp only [mulVec, Vec3.add, Vec3.mk.injEq]
  refine ⟨by ring, by ring, by ring⟩

end Mat3

/-- `UnitQuaternion::to_rotation_matrix`, exactly nalgebra's polynomial
formula (valid as a rotation matrix when the argument is unit). -/
def unitRotMatrix (q : Quat) : Mat3 :=
  ⟨q.w ^ 2 + q.x ^ 2 - q.y ^ 2 - q.z ^ 2,
   2 * (q.x * q.y - q.w * q.z),
   2 * (q.w * q.y + q.x * q.z),
   2 * (q.w * q.z + q.x * q.y),
   q.w ^ 2 - q.x ^ 2 + q.y ^ 2 - q.z ^ 2,
   2 * (q.y * q.z - q.w * q.x),
   2 * (q.x * q.z - q.w * q.y),
   2 * (q.w * q.x + q.y * q.z),
   q.w ^ 2 - q.x ^ 2 - q.y ^ 2 + q.z ^ 2⟩

/-- The sandwich identity: the polynomial rotation matrix of `q` composed
with that of its conjugate scales by `normSq q ^ 2` (a polynomial identity,
true for every quaternion). -/
theorem unitRotMatrix_conj_cancel (q : Quat) (v : Vec3) :
    (unitRotMatrix q).mulVec ((unitRotMatrix q.conj).mulVec v) =
      ⟨q.normSq ^ 2 * v.x, q.normSq ^ 2 * v.y, q.normSq ^ 2 * v.z⟩ := by
  simp only [unitRotMatrix, Quat.conj, Quat.normSq, Mat3.mulVec, Vec3.mk.injEq]
  refine ⟨by ring, by ring, by ring⟩

theorem unitRotMatrix_conj_cancel_of_unit {q : Quat} (h : q.normSq = 1)
    (v : Vec3) :
    (unitRotMatrix q).mulVec ((unitRotMatrix q.conj).mulVec v) = v := by
  rw [unitRotMatrix_conj_cancel, h]
  simp

/-! ## The NuScenes record types (`src/schema/nuscenes/<collection>.rs`) -/

/-- `annotation.rs`: one `sample_annotation.json` record.  `translation` is
`(x, y, z)`, `size` is `(width, length, height)`, `rotation` is stored as
`(w, x, y, z)`. -/
structure NuAnnotation where
  token : String
  sample_token : String
  instance_token : String
  attribute_tokens : List String
  visibility_token : String
  translation : Vec3
  size_width : ℚ
  size_length : ℚ
  size_height : ℚ
  rotation : Quat
  num_lidar_pts : ℤ
  num_radar_pts : ℤ
  next : String
  prev : String
deriving DecidableEq, Repr

/-- `calibration.rs`: one `calibrated_sensor.json` record; the intrinsic is
optional (`None` for non-camera sensors). -/
structure NuCalibration where
  token : String
  sensor_token : String
  rotation : Quat
  translation : Vec3
  camera_intrinsic : Option Mat3
deriving DecidableEq, Repr

/-- `category.rs`. -/
structure NuCategory where
  token : String
  name : String
deriving DecidableEq, Repr

/-- `data.rs`: one `sample_data.json` record. -/
structure NuData where
  token : String
  is_key_frame : Bool
  timestamp : ℚ
  width : Option ℚ
  height : Option ℚ
  fileformat : String
  filename : String
  ego_pose_token : String
  sample_token : String
  calibrated_sensor_token : String
  next : String
  prev : String
deriving DecidableEq, Repr

/-- `ego.rs`: one `ego_pose.json` record. -/
structure NuEgo where
  token : String
  rotation : Quat
  translation : Vec3
  timestamp : ℚ
deriving DecidableEq, Repr

/-- `instance.rs`. -/
structure NuInstance where
  token : String
  category_token : String
  nbr_annotations : ℤ
  first_annotation_token : String
  last_annotation_token : String
deriving DecidableEq, Repr

/-- `sample.rs`. -/
structure NuSample where
  token : String
  timestamp : ℚ
  scene_token : String
  next : String
  prev : String
deriving DecidableEq, Repr

/-- `scene.rs`. -/
structure NuScene where
  token : String
  name : String
  description : String
  log_token : String
  nbr_samples : ℤ
  first_sample_token : String
  last_sample_token : String
deriving DecidableEq, Repr

/-- `sensor.rs`. -/
structure NuSensor where
  token : String
  modality : String
  channel : String
deriving DecidableEq, Repr

/-! ## Annotation geometry (`annotation.rs`) -/

namespace NuAnnotation

/-- The fixed sign pattern of `Annotation::corners`:
x row `[1, 1, 1, 1, -1, -1, -1, -1]`. -/
def signX : Fin 8 → ℚ
  | 0 => 1 | 1 => 1 | 2 => 1 | 3 => 1 | 4 => -1 | 5 => -1 | 6 => -1 | 7 => -1

/-- y row `[1, -1, -1, 1, 1, -1, -1, 1]`. -/
def signY : Fin 8 → ℚ
  | 0 => 1 | 1 => -1 | 2 => -1 | 3 => 1 | 4 => 1 | 5 => -1 | 6 => -1 | 7 => 1

/-- z row `[1, 1, -1, -1, 1, 1, -1, -1]`. -/
def signZ : Fin 8 → ℚ
  | 0 => 1 | 1 => 1 | 2 => -1 | 3 => -1 | 4 => 1 | 5 => 1 | 6 => -1 | 7 => -1

/-- `Annotation::corners`, column `i` of the 3×8 corner matrix: the scaled
sign box (x scaled by `length/2`, y by `width/2`, z by `height/2`) rotated
by the rotation matrix of `from_quaternion(self.rotation)` and then
translated by `self.translation`. -/
def corner (a : NuAnnotation) (i : Fin 8) : Vec3 :=
  let base : Vec3 :=
    ⟨a.size_length / 2 * signX i, a.size_width / 2 * signY i,
     a.size_height / 2 * signZ i⟩
  ((unitRotMatrix a.rotation.normalize).mulVec base).add a.translation

/-- `Annotation::translate`: component-wise addition of the (already
inverted by the caller, where applicable) translation argument. -/
def translate (a : NuAnnotation) (t : Vec3) : NuAnnotation :=
  { a with translation := a.translation.add t }

/-- `Annotation::rotate`: rotate `translation` by the rotation matrix of the
given unit quaternion, and left-compose the stored rotation with it
(`rotation * from_quaternion(self.rotation)`).  The argument stands for an
nalgebra `UnitQuaternion`, i.e. an already-normalized quaternion. -/
def rotate (a : NuAnnotation) (r : Quat) : NuAnnotation :=
  { a with
    translation := (unitRotMatrix r).mulVec a.translation
    rotation := r.mul a.rotation.normalize }

/-- `Annotation::transform`: translate, then rotate. -/
def transform (a : NuAnnotation) (t : Vec3) (r : Quat) : NuAnnotation :=
  (a.translate t).rotate r

/-- `Annotation::projection`, column `i`: multiply the 3×3 view (intrinsic)
matrix by the corner matrix, then divide every component of a column by
that column's third (depth) component. -/
def projectionCol (a : NuAnnotation) (view : Mat3) (i : Fin 8) : Vec3 :=
  let c := view.mulVec (a.corner i)
  ⟨c.x / c.z, c.y / c.z, c.z / c.z⟩

/-- `Annotation::inside`: every projected x strictly inside `(0, width)`,
every projected y strictly inside `(0, height)`, every (pre-projection)
corner depth strictly greater than `1.0`. -/
def inside (a : NuAnnotation) (view : Mat3) (width height : ℚ) : Bool :=
  let visible := (List.finRange 8).all fun i =>
    decide (0 < (a.projectionCol view i).x ∧ (a.projectionCol view i).x < width)
  let visible := visible && ((List.finRange 8).all fun i =>
    decide (0 < (a.projectionCol view i).y ∧ (a.projectionCol view i).y < height))
  visible && ((List.finRange 8).all fun i => decide (1 < (a.corner i).z))

end NuAnnotation

/-! ## Output data model

The output types (`Frame`, `DetectionRecord`, image and box types) come from
the external `strem` crate, which is outside this repository; they are
modelled from the spec (§3, Derived entities), using only the constructor
shapes the importer calls. -/

/-- Modelled from the spec: a 2D image-plane point (`strem` `Point::new`). -/
structure Point where
  x : ℚ
  y : ℚ
deriving DecidableEq, Repr

/-- Modelled from the spec: an axis-aligned 2D box, center + width + height
(`strem` `aa::Region::new(center, width, height)`). -/
structure AARegion where
  center : Point
  width : ℚ
  height : ℚ
deriving DecidableEq, Repr

/-- Modelled from the spec: one projected annotation
(`strem` `Annotation::new(label, instance, score, bbox)`). -/
structure OutAnnotation where
  label : String
  instanceId : Option String
  score : ℚ
  bbox : AARegion
deriving DecidableEq, Repr

/-- Modelled from the spec: an image reference with pixel dimensions
(`strem` `Image::new(source, width as u32, height as u32)`). -/
structure Image where
  source : String
  width : ℕ
  height : ℕ
deriving DecidableEq, Repr

/-- Rust `f64 as u32` saturating cast: truncate toward zero and clamp to
`[0, 2^32 - 1]`. -/
def f64ToU32 (q : ℚ) : ℕ :=
  min (max ⌊q⌋ 0).toNat (2 ^ 32 - 1)

/-- Modelled from the spec: one sensor's detections within a frame
(`strem` `DetectionRecord::new(channel, image)` with annotations assigned
afterwards).  The Rust type groups annotations by label in a hash map; the
embedding keeps the `(label, annotation)` pairs as a list in annotation
order, which carries the same multiset of entries. -/
structure DetectionRecord where
  channel : String
  image : Option Image
  annotations : List (String × OutAnnotation)
deriving DecidableEq, Repr

/-- Modelled from the spec: one frame of the per-scene timeline
(`strem` `Frame::new(index)`, samples pushed as
`Sample::ObjectDetection(record)`; the embedding stores the records
directly, as `ObjectDetection` is the only constructor used). -/
structure Frame where
  index : ℕ
  samples : List DetectionRecord
deriving DecidableEq, Repr

/-! ## Panic modelling -/

/-- The `Option::unwrap` sites of `import`/`annotations`; reaching one with
`None` is a Rust panic (process crash), embedded as `Except.error`. -/
inductive PanicKind where
  | missingData
  | missingCalibration
  | missingSensor
  | missingEgo
  | missingInstance
  | missingCategory
  | missingIntrinsic
  | missingWidth
  | missingHeight
deriving DecidableEq, Repr

/-- `Option::unwrap`, with the panic site recorded. -/
def unwrapE {ε α : Type} (o : Option α) (k : ε) : Except ε α :=
  match o with
  | some a => .ok a
  | none => .error k

/-! ## The importer (`src/schema/nuscenes.rs`) -/

/-- `NuScenes::channel`: fixed allow-list of camera channel names. -/
def channelFn (channel : String) : Option String :=
  match channel with
  | "CAM_FRONT" => some "cam::front"
  | "CAM_FRONT_ZOOMED" => some "cam::front::zoomed"
  | "CAM_FRONT_LEFT" => some "cam::front::left"
  | "CAM_FRONT_RIGHT" => some "cam::front::right"
  | "CAM_BACK" => some "cam::back"
  | "CAM_BACK_LEFT" => some "cam::back::left"
  | "CAM_BACK_RIGHT" => some "cam::back::right"
  | _ => none

/-- `NuScenes::image`: an image reference only when the data record carries
both pixel width and height. -/
def imageFn (d : NuData) : Option Image :=
  match d.width, d.height with
  | some w, some h => some ⟨d.filename, f64ToU32 w, f64ToU32 h⟩
  | _, _ => none

/-- `NuScenes::translate`: move the annotation into the sensor-local frame
by two `Annotation::transform` applications — first with the inverted ego
pose, then with the inverted calibration pose.  `Translation::inverse` is
component-wise negation; `UnitQuaternion::from_quaternion(..).inverse()` is
the conjugate of the normalized quaternion. -/
def translateNu (a : NuAnnotation) (ego : NuEgo) (cal : NuCalibration) :
    NuAnnotation :=
  (a.transform ego.translation.neg ego.rotation.normalize.conj).transform
    cal.translation.neg cal.rotation.normalize.conj

/-- Minimum of a list of rationals.  The Rust code folds `f64::min` with a
`NAN` seed; since `f64::min` ignores a `NaN` argument, that fold is the
plain minimum of the (nonempty, 8-element) list. -/
def listMin (l : List ℚ) : ℚ := l.foldl min (l.headD 0)

/-- Maximum of a list of rationals (`f64::max` folded from a `NAN` seed). -/
def listMax (l : List ℚ) : ℚ := l.foldl max (l.headD 0)

/-- One iteration of the loop body of `NuScenes::annotations`: resolve the
annotation's instance and the instance's category (both `unwrap`s), move
the annotation into the sensor frame, and — when the visibility test
passes (its `width`/`height` arguments are `unwrap`s of the data record's
optional fields) — produce the `(label, projected annotation)` entry. -/
def annotationEntry (d : NuData) (ego : NuEgo) (cal : NuCalibration)
    (viewport : Mat3)
    (instances : String → Option NuInstance)
    (categories : String → Option NuCategory)
    (a : NuAnnotation) : Except PanicKind (Option (String × OutAnnotation)) := do
  let inst ← unwrapE (instances a.instance_token) .missingInstance
  let label ← unwrapE (categories inst.category_token) .missingCategory
  let tr := translateNu a ego cal
  let w ← unwrapE d.width .missingWidth
  let h ← unwrapE d.height .missingHeight
  if tr.inside viewport w h then
    let xs := (List.finRange 8).map fun i => (tr.projectionCol viewport i).x
    let ys := (List.finRange 8).map fun i => (tr.projectionCol viewport i).y
    let xmin := listMin xs
    let ymin := listMin ys
    let xmax := listMax xs
    let ymax := listMax ys
    let width := xmax - xmin
    let height := ymax - ymin
    pure (some (label.name,
      ⟨label.name, some a.instance_token, 1,
       ⟨⟨xmin + width / 2, ymin + height / 2⟩, width, height⟩⟩))
  else
    pure none

/-- The `for annotation in annotations` loop of `NuScenes::annotations`:
process each annotation in order, keeping the entries of the ones that pass
the visibility test (the Rust loop pushes them into the result map). -/
def annotationEntries (d : NuData) (ego : NuEgo) (cal : NuCalibration)
    (viewport : Mat3)
    (instances : String → Option NuInstance)
    (categories : String → Option NuCategory) :
    List NuAnnotation → Except PanicKind (List (String × OutAnnotation))
  | [] => pure []
  | a :: rest => do
    let entry ← annotationEntry d ego cal viewport instances categories a
    let others ← annotationEntries d ego cal viewport instances categories rest
    pure (match entry with
      | some x => x :: others
      | none => others)

/-- `NuScenes::annotations`: unwrap the calibration's intrinsic matrix (the
Rust code unwraps the same `Option` once per row; one unwrap of the same
field — the viewport built from its three rows is the matrix itself), then
process each annotation of the sample in order. -/
def annotationsFn (d : NuData) (ego : NuEgo) (cal : NuCalibration)
    (anns : List NuAnnotation)
    (instances : String → Option NuInstance)
    (categories : String → Option NuCategory) :
    Except PanicKind (List (String × OutAnnotation)) := do
  let viewport ← unwrapE cal.camera_intrinsic .missingIntrinsic
  annotationEntries d ego cal viewport instances categories anns

/-- The in-memory record collections `import` loads before traversal,
one list per JSON file. -/
structure Env where
  samples : List NuSample
  annotations : List NuAnnotation
  datas : List NuData
  instances : List NuInstance
  categories : List NuCategory
  egos : List NuEgo
  calibrations : List NuCalibration
  sensors : List NuSensor
deriving DecidableEq, Repr

/-- `HashMap` index built by `collect` over `(token, record)` pairs: for a
duplicated token the later record wins, hence lookup on the reversed list. -/
def indexBy {α : Type} (key : α → String) (l : List α) (tok : String) :
    Option α :=
  l.reverse.find? fun a => key a == tok

namespace Env

/-- Lookup in the `samples` index. -/
def sampleAt (e : Env) (tok : String) : Option NuSample :=
  indexBy NuSample.token e.samples tok

/-- Lookup in the `calibrations` index. -/
def calibrationAt (e : Env) (tok : String) : Option NuCalibration :=
  indexBy NuCalibration.token e.calibrations tok

/-- Lookup in the `sensors` index. -/
def sensorAt (e : Env) (tok : String) : Option NuSensor :=
  indexBy NuSensor.token e.sensors tok

/-- Lookup in the `egos` index. -/
def egoAt (e : Env) (tok : String) : Option NuEgo :=
  indexBy NuEgo.token e.egos tok

/-- Lookup in the `instances` index. -/
def instanceAt (e : Env) (tok : String) : Option NuInstance :=
  indexBy NuInstance.token e.instances tok

/-- Lookup in the `categories` index. -/
def categoryAt (e : Env) (tok : String) : Option NuCategory :=
  indexBy NuCategory.token e.categories tok

/-- The `annotations: HashMap<SampleToken, Vec<NuAnnotation>>` grouping: the
entry for a sample token holds exactly the annotation records carrying it,
in input order (an absent entry is the empty list — the two are
distinguished only through emptiness, which matches `entry..push`). -/
def annsOf (e : Env) (tok : String) : List NuAnnotation :=
  e.annotations.filter fun a => a.sample_token == tok

/-- The `datas: HashMap<SampleToken, Vec<NuData>>` grouping. -/
def datasOf (e : Env) (tok : String) : List NuData :=
  e.datas.filter fun d => d.sample_token == tok

end Env

/-- The body of the per-data loop of `import`: resolve the calibration and
sensor (`unwrap`s), filter by `channel`, and for a surviving channel build
the `DetectionRecord` — with annotations only when the sample has an
annotation entry, resolving the ego pose (`unwrap`) at that point. -/
def processData (e : Env) (s : NuSample) (d : NuData) :
    Except PanicKind (Option DetectionRecord) := do
  let cal ← unwrapE (e.calibrationAt d.calibrated_sensor_token) .missingCalibration
  let sensor ← unwrapE (e.sensorAt cal.sensor_token) .missingSensor
  match channelFn sensor.channel with
  | none => pure none
  | some ch => do
    let img := imageFn d
    let anns := e.annsOf s.token
    if anns.isEmpty then
      pure (some ⟨ch, img, []⟩)
    else do
      let ego ← unwrapE (e.egoAt d.ego_pose_token) .missingEgo
      let recAnns ← annotationsFn d ego cal anns e.instanceAt e.categoryAt
      pure (some ⟨ch, img, recAnns⟩)

/-- The `for data in datas` loop of `import`: process each data record of
the sample in order, pushing the detection records of the channel-passing
ones. -/
def processDatas (e : Env) (s : NuSample) :
    List NuData → Except PanicKind (List DetectionRecord)
  | [] => pure []
  | d :: ds => do
    let o ← processData e s d
    let rest ← processDatas e s ds
    pure (match o with
      | some rec => rec :: rest
      | none => rest)

/-- One iteration of the `while let` loop of `import`: build the frame for
one sample.  `datas.get(&sample.token).unwrap()` panics when the sample has
no data entry (the grouped map has no key for it). -/
def processSample (e : Env) (s : NuSample) (idx : ℕ) :
    Except PanicKind Frame := do
  let ds := e.datasOf s.token
  if ds.isEmpty then
    Except.error .missingData
  else do
    let recs ← processDatas e s ds
    pure ⟨idx, recs⟩

/-- The sample-chain walk of `import`: starting from a token, look it up in
the sample index; stop at the first failed lookup, otherwise emit the frame
and continue with the sample's `next` token, incrementing the index.  The
Rust `while let` loop has no cycle detection and can diverge (spec §9); the
embedding is fuel-indexed, and every theorem about a chain requires the
walk to terminate within the supplied fuel. -/
def processChain (e : Env) : ℕ → String → ℕ → Except PanicKind (List Frame)
  | 0, _, _ => pure []
  | fuel + 1, tok, idx =>
    match e.sampleAt tok with
    | none => pure []
    | some s => do
      let frame ← processSample e s idx
      let rest ← processChain e fuel s.next (idx + 1)
      pure (frame :: rest)

/-- The pure sample-chain walk (no frame building), used to state chain
lengths. -/
def chainFrom (e : Env) : ℕ → String → List NuSample
  | 0, _ => []
  | fuel + 1, tok =>
    match e.sampleAt tok with
    | none => []
    | some s => s :: chainFrom e fuel s.next

/-- The per-scene loop of `import`: each scene contributes the entry
`(scene.token, frames)` where `frames` comes from walking the chain from
`first_sample_token` with index starting at `0`. -/
def importScenes (e : Env) (fuel : ℕ) :
    List NuScene → Except PanicKind (List (String × List Frame))
  | [] => pure []
  | sc :: rest => do
    let frames ← processChain e fuel sc.first_sample_token 0
    let out ← importScenes e fuel rest
    pure ((sc.token, frames) :: out)

/-- A loaded dataset: the scene collection plus the other record
collections.  The Rust code iterates `scenes.values()` of a `HashMap`
(unspecified order); the embedding iterates the input list order, on which
no claim depends. -/
structure Database where
  scenes : List NuScene
  env : Env
deriving DecidableEq, Repr

/-- `NuScenes::import` after loading: build the indices and produce the
`(scene token, frames)` list, or the first panic encountered. -/
def importDb (fuel : ℕ) (db : Database) :
    Except PanicKind (List (String × List Frame)) :=
  importScenes db.env fuel db.scenes

/-! ## The intrinsic-field deserializer (`calibration.rs`) -/

/-- A `serde_json::Value`. -/
inductive Json where
  | null
  | bool (b : Bool)
  | num (q : ℚ)
  | str (s : String)
  | arr (items : List Json)
  | obj (fields : List (String × Json))

/-- `Value::as_array`. -/
def Json.asArray : Json → Option (List Json)
  | .arr l => some l
  | _ => none

/-- `Value::as_f64` (any JSON number; model numbers over `ℚ`). -/
def Json.asF64 : Json → Option ℚ
  | .num q => some q
  | _ => none

/-- The `unwrap` sites of `deserialize_intrinsic`; reaching one is a Rust
panic, not a serde error. -/
inductive DeserPanic where
  | rowNotArray
  | entryNotNumber
  | rowWrongLength
  | wrongRowCount
deriving DecidableEq, Repr

/-- The entry loop of one row of `deserialize_intrinsic`:
`row.as_array().unwrap()` (panic on a non-array row), `as_f64().unwrap()`
on every entry (panic on a non-number), then `try_into` a `[f64; 3]`
(panic unless exactly 3 entries). -/
def parseRow (row : Json) : Except DeserPanic (ℚ × ℚ × ℚ) := do
  let es ← unwrapE row.asArray .rowNotArray
  let ns ← parseEntries es
  match ns with
  | [a, b, c] => pure (a, b, c)
  | _ => .error .rowWrongLength
where
  /-- The `map(as_f64().unwrap())` over a row's entries. -/
  parseEntries : List Json → Except DeserPanic (List ℚ)
    | [] => pure []
    | e :: es => do
      let n ← unwrapE e.asF64 .entryNotNumber
      let ns ← parseEntries es
      pure (n :: ns)

/-- The row loop of `deserialize_intrinsic`: parse each row in order. -/
def parseRows : List Json → Except DeserPanic (List (ℚ × ℚ × ℚ))
  | [] => pure []
  | r :: rs => do
    let t ← parseRow r
    let ts ← parseRows rs
    pure (t :: ts)

/-- `deserialize_intrinsic` (`calibration.rs`): an empty JSON array decodes
to an absent intrinsic; a non-empty array has each row parsed (panicking on
any malformed row) and is then converted by `try_into` into a 3×3 matrix
(panicking unless there are exactly 3 rows); any non-array value decodes to
an absent intrinsic.  The function never constructs a serde error itself:
its `D::Error` path is only the upstream `Value::deserialize`. -/
def deserialize_intrinsic (v : Json) : Except DeserPanic (Option Mat3) :=
  match v with
  | .arr [] => pure none
  | .arr rows => do
    let rs ← parseRows rows
    match rs with
    | [(a, b, c), (d, e, f), (g, h, i)] => pure (some ⟨a, b, c, d, e, f, g, h, i⟩)
    | _ => .error .wrongRowCount
  | _ => pure none

/-! ## Claim C3: the visibility predicate -/

/-- C3: `Annotation::inside` returns `true` iff all 8 projected corner
x-coordinates lie strictly between `0` and the image width, all 8 projected
corner y-coordinates lie strictly between `0` and the image height, and all
8 pre-projection sensor-local corner depths are strictly greater than `1`
(so in particular a box whose every corner depth is exactly `1` fails the
strict bound and is excluded). -/
theorem inside_iff_corners_strictly_visible (a : NuAnnotation) (view : Mat3)
    (width height : ℚ) :
    a.inside view width height = true ↔
      ((∀ i : Fin 8, 0 < (a.projectionCol view i).x ∧
          (a.projectionCol view i).x < width) ∧
       (∀ i : Fin 8, 0 < (a.projectionCol view i).y ∧
          (a.projectionCol view i).y < height) ∧
       (∀ i : Fin 8, 1 < (a.corner i).z)) := by
  simp only [ NuAnnotation.inside, Bool.and_eq_true, List.all_eq_true,
    List.mem_finRange, decide_eq_true_eq, true_implies]
  tauto

/-! ## Claims C4 and C8: the local-frame change -/

/-- One stage of `NuScenes::translate`: `Annotation::transform` invoked
with the inverted pose — the negated translation and the conjugate
(`UnitQuaternion::inverse`) of the normalized frame rotation. -/
def toLocalPose (a : NuAnnotation) (t : Vec3) (r : Quat) : NuAnnotation :=
  a.transform t.neg r.normalize.conj

/-- C4 (amended): for a unit frame rotation `R` and an annotation with unit
orientation `q`, the local-frame change subtracts the frame translation
component-wise from the position and then rotates the shifted vector by
the inverse (conjugate) of `R`; the new orientation is the inverse of `R`
composed with `q` by quaternion LEFT-multiplication, `R⁻¹ * q` — not the
right-multiplication `q * R⁻¹` of the original claim. -/
theorem toLocalPose_subtract_then_rotate (a : NuAnnotation) (t : Vec3)
    (r : Quat) (hr : r.normSq = 1) (ha : a.rotation.normSq = 1) :
    (toLocalPose a t r).translation =
      (unitRotMatrix r.conj).mulVec (a.translation.sub t) ∧
    (toLocalPose a t r).rotation = r.conj.mul a.rotation := by
  unfold toLocalPose NuAnnotation.transform NuAnnotation.translate
    NuAnnotation.rotate
  simp [Quat.normalize_of_normSq_one hr, Quat.normalize_of_normSq_one ha,
    Vec3.add_neg_eq_sub]

/-- A concrete annotation used in the counterexample and witnesses: the
unit box at the origin with orientation `j = (0, 0, 1, 0)`. -/
def annOrientJ : NuAnnotation :=
  ⟨"a0", "s0", "i0", [], "v0", ⟨0, 0, 0⟩, 1, 1, 1, ⟨0, 0, 1, 0⟩, 0, 0, "", ""⟩

/-- C4 counterexample: with frame rotation `R = i = (0, 1, 0, 0)` (a unit
quaternion) and annotation orientation `q = j`, the code produces
`R⁻¹ * q = -k`, while the claimed right-multiplication `q * R⁻¹` is `+k`:
the orientation of `to_local` is NOT `q * R⁻¹`. -/
theorem toLocalPose_not_right_multiplication :
    (toLocalPose annOrientJ ⟨0, 0, 0⟩ ⟨0, 1, 0, 0⟩).rotation ≠
      annOrientJ.rotation.mul (Quat.conj ⟨0, 1, 0, 0⟩) := by
  have hleft : (toLocalPose annOrientJ ⟨0, 0, 0⟩ ⟨0, 1, 0, 0⟩).rotation =
      ⟨0, 0, 0, -1⟩ := by
    have h1 : (Quat.mk 0 1 0 0).normSq = 1 := by norm_num [Quat.normSq]
    have h2 : annOrientJ.rotation.normSq = 1 := by
      norm_num [annOrientJ, Quat.normSq]
    unfold toLocalPose NuAnnotation.transform NuAnnotation.translate
      NuAnnotation.rotate
    simp only [Quat.normalize_of_normSq_one h1, Quat.normalize_of_normSq_one h2]
    norm_num [annOrientJ, Quat.mul, Quat.conj]
  have hright : annOrientJ.rotation.mul (Quat.conj ⟨0, 1, 0, 0⟩) =
      ⟨0, 0, 0, 1⟩ := by
    norm_num [annOrientJ, Quat.mul, Quat.conj]
  rw [hleft, hright]
  simp only [ne_eq, Quat.mk.injEq]
  norm_num

/-- C8: transforming an annotation (unit orientation) into the local frame
of a pose `(t, r)` (unit rotation) and then applying `Annotation::transform`
with the exact inverse translate/rotate pair — translation `R⁻¹ t` (the
image of `t` under the already-applied inverse rotation) and rotation `r`
— restores the original position and orientation exactly. -/
theorem toLocalPose_roundTrip (a : NuAnnotation) (t : Vec3) (r : Quat)
    (hr : r.normSq = 1) (ha : a.rotation.normSq = 1) :
    ((toLocalPose a t r).transform ((unitRotMatrix r.conj).mulVec t) r).translation
        = a.translation ∧
    ((toLocalPose a t r).transform ((unitRotMatrix r.conj).mulVec t) r).rotation
        = a.rotation := by
  unfold toLocalPose NuAnnotation.transform NuAnnotation.translate
    NuAnnotation.rotate
  simp only [Quat.normalize_of_normSq_one hr, Quat.normalize_of_normSq_one ha]
  constructor
  · show (unitRotMatrix r).mulVec
        (((unitRotMatrix r.conj).mulVec (a.translation.add t.neg)).add
          ((unitRotMatrix r.conj).mulVec t)) = a.translation
    rw [Mat3.mulVec_add, Vec3.add_neg_add_cancel,
      unitRotMatrix_conj_cancel_of_unit hr]
  · show r.mul (Quat.normalize (r.conj.mul a.rotation)) = a.rotation
    have hn : (r.conj.mul a.rotation).normSq = 1 := by
      rw [Quat.normSq_mul, Quat.normSq_conj, hr, ha, one_mul]
    rw [Quat.normalize_of_normSq_one hn, ← Quat.mul_assoc, Quat.mul_conj_self,
      hr, Quat.one_mul]

/-- C8 witness: the round trip at the concrete annotation with orientation
`j`, translation `(1, 2, 3)` and the unit pose rotation `(3/5, 4/5, 0, 0)`. -/
theorem toLocalPose_roundTrip_witness :
    ((toLocalPose annOrientJ ⟨1, 2, 3⟩ ⟨3/5, 4/5, 0, 0⟩).transform
        ((unitRotMatrix (Quat.conj ⟨3/5, 4/5, 0, 0⟩)).mulVec ⟨1, 2, 3⟩)
        ⟨3/5, 4/5, 0, 0⟩).translation = annOrientJ.translation ∧
    ((toLocalPose annOrientJ ⟨1, 2, 3⟩ ⟨3/5, 4/5, 0, 0⟩).transform
        ((unitRotMatrix (Quat.conj ⟨3/5, 4/5, 0, 0⟩)).mulVec ⟨1, 2, 3⟩)
        ⟨3/5, 4/5, 0, 0⟩).rotation = annOrientJ.rotation :=
  toLocalPose_roundTrip annOrientJ ⟨1, 2, 3⟩ ⟨3/5, 4/5, 0, 0⟩
    (by norm_num [Quat.normSq]) (by norm_num [annOrientJ, Quat.normSq])

/-- C4 witness (for the amended theorem): the subtract-then-rotate shape at
the annotation with orientation `j`, frame translation `(5, 6, 7)` and unit
frame rotation `i`. -/
theorem toLocalPose_subtract_then_rotate_witness :
    (toLocalPose annOrientJ ⟨5, 6, 7⟩ ⟨0, 1, 0, 0⟩).translation =
      (unitRotMatrix (Quat.conj ⟨0, 1, 0, 0⟩)).mulVec
        (annOrientJ.translation.sub ⟨5, 6, 7⟩) ∧
    (toLocalPose annOrientJ ⟨5, 6, 7⟩ ⟨0, 1, 0, 0⟩).rotation =
      (Quat.conj ⟨0, 1, 0, 0⟩).mul annOrientJ.rotation :=
  toLocalPose_subtract_then_rotate annOrientJ ⟨5, 6, 7⟩ ⟨0, 1, 0, 0⟩
    (by norm_num [Quat.normSq]) (by norm_num [annOrientJ, Quat.normSq])

/-! ## Claim C2: one frame per resolvable chain link, indices in chain order -/

theorem pure_eq_ok {ε α : Type} (a : α) : (pure a : Except ε α) = Except.ok a :=
  rfl

@[simp]
theorem bind_eq_ok {ε α β : Type} {x : Except ε α} {f : α → Except ε β}
    {b : β} :
    x >>= f = Except.ok b ↔ ∃ a, x = Except.ok a ∧ f a = Except.ok b := by
  cases x <;> simp [Bind.bind, Except.bind]

@[simp]
theorem bind_eq_error {ε α β : Type} {x : Except ε α} {f : α → Except ε β}
    {k : ε} :
    x >>= f = Except.error k ↔
      x = Except.error k ∨ ∃ a, x = Except.ok a ∧ f a = Except.error k := by
  cases x <;> simp [Bind.bind, Except.bind]

theorem processSample_index (e : Env) (s : NuSample) (idx : ℕ) (fr : Frame)
    (h : processSample e s idx = .ok fr) : fr.index = idx := by
  simp only [processSample] at h
  split at h
  · cases h
  · rw [bind_eq_ok] at h
    obtain ⟨recs, -, h2⟩ := h
    cases h2
    rfl

/-- The frames produced by the chain walk are in bijection with the
resolvable chain links, and carry consecutive indices from the start
index. -/
theorem processChain_ok_spec (e : Env) (fuel : ℕ) :
    ∀ (tok : String) (idx : ℕ) (frames : List Frame),
      processChain e fuel tok idx = .ok frames →
      frames.length = (chainFrom e fuel tok).length ∧
      ∀ (k : ℕ) (hk : k < frames.length),
        (frames.get ⟨k, hk⟩).index = idx + k := by
  induction fuel with
  | zero =>
    intro tok idx frames h
    cases h
    simp [chainFrom]
  | succ n ih =>
    intro tok idx frames h
    unfold processChain at h
    cases hs : e.sampleAt tok with
    | none =>
      rw [hs] at h
      cases h
      simp [chainFrom, hs]
    | some s =>
      rw [hs] at h
      rw [bind_eq_ok] at h
      obtain ⟨fr, hfr, h2⟩ := h
      rw [bind_eq_ok] at h2
      obtain ⟨rest, hrest, h3⟩ := h2
      cases h3
      have hidx := processSample_index e s idx fr hfr
      obtain ⟨hlen, hind⟩ := ih s.next (idx + 1) rest hrest
      refine ⟨by simp [chainFrom, hs, hlen], ?_⟩
      intro k hk
      cases k with
      | zero => simpa using hidx
      | succ m =>
        have hm : m < rest.length := by
          simpa using hk
        have := hind m hm
        simp only [List.get_cons_succ, this]
        omega

/-- Each scene contributes exactly one output entry, at its input position,
holding its token and the frames of its chain walk. -/
theorem importScenes_ok_spec (e : Env) (fuel : ℕ) :
    ∀ (scenes : List NuScene) (out : List (String × List Frame)),
      importScenes e fuel scenes = .ok out →
      out.length = scenes.length ∧
      ∀ (i : ℕ) (hi : i < scenes.length), ∃ frames,
        processChain e fuel (scenes.get ⟨i, hi⟩).first_sample_token 0 =
          .ok frames ∧
        out[i]? = some ((scenes.get ⟨i, hi⟩).token, frames) := by
  intro scenes
  induction scenes with
  | nil =>
    intro out h
    cases h
    simp
  | cons sc rest ih =>
    intro out h
    unfold importScenes at h
    rw [bind_eq_ok] at h
    obtain ⟨frames, hframes, h2⟩ := h
    rw [bind_eq_ok] at h2
    obtain ⟨outRest, hrest, h3⟩ := h2
    cases h3
    obtain ⟨hlen, hall⟩ := ih outRest hrest
    refine ⟨by simp [hlen], ?_⟩
    intro i hi
    cases i with
    | zero => exact ⟨frames, hframes, by simp⟩
    | succ j =>
      have hj : j < rest.length := by simpa using hi
      obtain ⟨fs, h1, h2⟩ := hall j hj
      exact ⟨fs, h1, by simpa using h2⟩

/-- C2: for a scene at input position `i` whose forward sample chain
resolves exactly `N` samples before a lookup fails (within the supplied
fuel), a succeeding import contains an output entry for that scene whose
frame sequence has exactly `N` frames, with indices `0, 1, ..., N-1`
assigned in chain-traversal order. -/
theorem import_scene_frames (db : Database) (fuel : ℕ)
    (out : List (String × List Frame)) (i : ℕ) (hi : i < db.scenes.length)
    (N : ℕ)
    (himp : importDb fuel db = .ok out)
    (hN : (chainFrom db.env fuel
      (db.scenes.get ⟨i, hi⟩).first_sample_token).length = N)
    (_hfail : N < fuel) :
    ∃ frames, out[i]? = some ((db.scenes.get ⟨i, hi⟩).token, frames) ∧
      frames.length = N ∧
      ∀ (k : ℕ) (hk : k < frames.length), (frames.get ⟨k, hk⟩).index = k := by
  obtain ⟨hlen, hall⟩ := importScenes_ok_spec db.env fuel db.scenes out himp
  obtain ⟨frames, hpc, hout⟩ := hall i hi
  obtain ⟨hflen, hidx⟩ := processChain_ok_spec db.env fuel
    (db.scenes.get ⟨i, hi⟩).first_sample_token 0 frames hpc
  refine ⟨frames, hout, by rw [hflen, hN], ?_⟩
  intro k hk
  simpa using hidx k hk

/-- Records used by the concrete witness datasets. -/
def sensorLidar : NuSensor := ⟨"sen1", "lidar", "LIDAR_TOP"⟩

/-- A calibration for the witness lidar sensor (no intrinsic). -/
def calLidar : NuCalibration := ⟨"cal1", "sen1", ⟨1, 0, 0, 0⟩, ⟨0, 0, 0⟩, none⟩

/-- A data record bound to the witness lidar sensor. -/
def dataLidar (tok stok : String) : NuData :=
  ⟨tok, true, 0, none, none, "jpg", "f.jpg", "ego1", stok, "cal1", "", ""⟩

/-- Witness dataset for C2: one scene with a two-sample chain, each sample
carrying one (non-camera) data record. -/
def dbChain2 : Database :=
  { scenes := [⟨"scene1", "n", "d", "log", 2, "s1", "s2"⟩]
    env :=
      { samples := [⟨"s1", 0, "scene1", "s2", ""⟩, ⟨"s2", 1, "scene1", "", "s1"⟩]
        annotations := []
        datas := [dataLidar "d1" "s1", dataLidar "d2" "s2"]
        instances := []
        categories := []
        egos := []
        calibrations := [calLidar]
        sensors := [sensorLidar] } }

/-- C2 witness: on the two-sample witness dataset the import output holds,
for the scene at position 0, exactly 2 frames with indices 0 and 1. -/
theorem import_scene_frames_witness :
    ∃ frames,
      (([("scene1", [Frame.mk 0 [], Frame.mk 1 []])] :
        List (String × List Frame))[0]?) = some ("scene1", frames) ∧
      frames.length = 2 ∧
      ∀ (k : ℕ) (hk : k < frames.length), (frames.get ⟨k, hk⟩).index = k :=
  import_scene_frames dbChain2 3 [("scene1", [Frame.mk 0 [], Frame.mk 1 []])]
    0 (by decide) 2 (by rfl) (by rfl) (by decide)

/-! ## Claim C7: the camera channel allow-list -/

/-- The seven raw camera channel names recognized by `NuScenes::channel`. -/
def allowedChannels : List String :=
  ["CAM_FRONT", "CAM_FRONT_ZOOMED", "CAM_FRONT_LEFT", "CAM_FRONT_RIGHT",
   "CAM_BACK", "CAM_BACK_LEFT", "CAM_BACK_RIGHT"]

theorem channelFn_isSome_iff (c : String) :
    (channelFn c).isSome = true ↔ c ∈ allowedChannels := by
  unfold channelFn
  split <;> simp_all [allowedChannels]

/-- A detection record produced by the per-data loop carries the canonical
id of an allow-listed raw channel name. -/
theorem processData_channel (e : Env) (s : NuSample) (d : NuData)
    (rec : DetectionRecord)
    (h : processData e s d = .ok (some rec)) :
    ∃ raw, raw ∈ allowedChannels ∧ channelFn raw = some rec.channel := by
  simp only [processData] at h
  rw [bind_eq_ok] at h
  obtain ⟨cal, -, h⟩ := h
  rw [bind_eq_ok] at h
  obtain ⟨sensor, -, h⟩ := h
  cases hch : channelFn sensor.channel with
  | none =>
    rw [hch] at h
    dsimp only at h
    rw [pure_eq_ok] at h
    simp at h
  | some ch =>
    rw [hch] at h
    dsimp only at h
    have hmem : sensor.channel ∈ allowedChannels := by
      rw [← channelFn_isSome_iff, hch]
      rfl
    refine ⟨sensor.channel, hmem, hch.trans ?_⟩
    split at h
    · rw [pure_eq_ok] at h
      cases h
      rfl
    · rw [bind_eq_ok] at h
      obtain ⟨ego, -, h⟩ := h
      rw [bind_eq_ok] at h
      obtain ⟨recAnns, -, h⟩ := h
      rw [pure_eq_ok] at h
      cases h
      rfl

theorem processDatas_channel (e : Env) (s : NuSample) :
    ∀ (ds : List NuData) (recs : List DetectionRecord),
      processDatas e s ds = .ok recs →
      ∀ rec ∈ recs, ∃ raw, raw ∈ allowedChannels ∧
        channelFn raw = some rec.channel := by
  intro ds
  induction ds with
  | nil =>
    intro recs h
    cases h
    simp
  | cons d rest ih =>
    intro recs h
    unfold processDatas at h
    rw [bind_eq_ok] at h
    obtain ⟨o, ho, h⟩ := h
    rw [bind_eq_ok] at h
    obtain ⟨others, hothers, h⟩ := h
    cases h
    intro rec hrec
    cases o with
    | none => exact ih others hothers rec (by simpa using hrec)
    | some r =>
      simp only [List.mem_cons] at hrec
      cases hrec with
      | inl heq => exact heq ▸ processData_channel e s d r ho
      | inr hmem => exact ih others hothers rec hmem

theorem processSample_channel (e : Env) (s : NuSample) (idx : ℕ) (fr : Frame)
    (h : processSample e s idx = .ok fr) :
    ∀ rec ∈ fr.samples, ∃ raw, raw ∈ allowedChannels ∧
      channelFn raw = some rec.channel := by
  simp only [processSample] at h
  split at h
  · cases h
  · rw [bind_eq_ok] at h
    obtain ⟨recs, hrecs, h⟩ := h
    cases h
    exact processDatas_channel e s _ recs hrecs

theorem processChain_channel (e : Env) (fuel : ℕ) :
    ∀ (tok : String) (idx : ℕ) (frames : List Frame),
      processChain e fuel tok idx = .ok frames →
      ∀ fr ∈ frames, ∀ rec ∈ fr.samples,
        ∃ raw, raw ∈ allowedChannels ∧ channelFn raw = some rec.channel := by
  induction fuel with
  | zero =>
    intro tok idx frames h
    cases h
    simp
  | succ n ih =>
    intro tok idx frames h
    unfold processChain at h
    cases hs : e.sampleAt tok with
    | none =>
      rw [hs] at h
      cases h
      simp
    | some s =>
      rw [hs] at h
      rw [bind_eq_ok] at h
      obtain ⟨fr, hfr, h⟩ := h
      rw [bind_eq_ok] at h
      obtain ⟨rest, hrest, h⟩ := h
      cases h
      intro f hf
      simp only [List.mem_cons] at hf
      cases hf with
      | inl heq => exact heq ▸ processSample_channel e s idx fr hfr
      | inr hmem => exact ih s.next (idx + 1) rest hrest f hmem

/-- C7: `channel` recognizes exactly the seven camera channel names (it
returns a canonical id iff the raw name is in the fixed allow-list), and in
a succeeding import every `DetectionRecord` of every frame of every scene
carries the canonical id of an allow-listed channel — a sensor whose
channel name is outside the allow-list never contributes a record. -/
theorem channel_allowlist_closed (db : Database) (fuel : ℕ)
    (out : List (String × List Frame))
    (himp : importDb fuel db = .ok out) :
    (∀ c : String, (channelFn c).isSome = true ↔ c ∈ allowedChannels) ∧
    (∀ entry ∈ out, ∀ fr ∈ entry.2, ∀ rec ∈ fr.samples,
      ∃ raw, raw ∈ allowedChannels ∧ channelFn raw = some rec.channel) := by
  refine ⟨channelFn_isSome_iff, ?_⟩
  have hmain : ∀ (scenes : List NuScene) (o : List (String × List Frame)),
      importScenes db.env fuel scenes = .ok o →
      ∀ entry ∈ o, ∀ fr ∈ entry.2, ∀ rec ∈ fr.samples,
        ∃ raw, raw ∈ allowedChannels ∧ channelFn raw = some rec.channel := by
    intro scenes
    induction scenes with
    | nil =>
      intro o h
      cases h
      simp
    | cons sc rest ih =>
      intro o h
      unfold importScenes at h
      rw [bind_eq_ok] at h
      obtain ⟨frames, hframes, h⟩ := h
      rw [bind_eq_ok] at h
      obtain ⟨oRest, hoRest, h⟩ := h
      cases h
      intro entry hentry
      simp only [List.mem_cons] at hentry
      cases hentry with
      | inl heq =>
        subst heq
        intro fr hfr
        exact processChain_channel db.env fuel sc.first_sample_token 0
          frames hframes fr hfr
      | inr hmem => exact ih oRest hoRest entry hmem
  exact hmain db.scenes out himp

/-- C7 witness: application to the two-sample witness dataset (whose lidar
channel is filtered out, so no record appears at all). -/
theorem channel_allowlist_closed_witness :
    (∀ c : String, (channelFn c).isSome = true ↔ c ∈ allowedChannels) ∧
    (∀ entry ∈ ([("scene1", [Frame.mk 0 [], Frame.mk 1 []])] :
        List (String × List Frame)),
      ∀ fr ∈ entry.2, ∀ rec ∈ fr.samples,
        ∃ raw, raw ∈ allowedChannels ∧ channelFn raw = some rec.channel) :=
  channel_allowlist_closed dbChain2 3
    [("scene1", [Frame.mk 0 [], Frame.mk 1 []])] (by rfl)

/-! ## Claim C9: a scene whose first sample token does not resolve -/

theorem processChain_none (e : Env) (fuel : ℕ) (tok : String) (idx : ℕ)
    (h : e.sampleAt tok = none) :
    processChain e fuel tok idx = .ok [] := by
  cases fuel with
  | zero => rfl
  | succ n =>
    unfold processChain
    rw [h]
    rfl

theorem importScenes_append (e : Env) (fuel : ℕ) (l1 l2 : List NuScene) :
    importScenes e fuel (l1 ++ l2) = (do
      let a ← importScenes e fuel l1
      let b ← importScenes e fuel l2
      pure (a ++ b)) := by
  induction l1 with
  | nil =>
    cases h2 : importScenes e fuel l2 <;>
      simp [importScenes, h2, Bind.bind, Except.bind, Pure.pure, Except.pure]
  | cons sc rest ih =>
    simp only [List.cons_append, importScenes]
    cases hc : processChain e fuel sc.first_sample_token 0 <;>
      cases hr : importScenes e fuel rest <;>
      cases h2 : importScenes e fuel l2 <;>
      simp [ih, hc, hr, h2, Bind.bind, Except.bind, Pure.pure, Except.pure]

/-- C9: when a scene's `first_sample_token` is not a key of the sample
index, the `while let` loop never runs: import succeeds exactly when it
succeeds on the remaining scenes, the offending scene contributes the entry
`(scene.token, [])` (an empty frame sequence) at its position, and every
other scene's output is unchanged. -/
theorem import_unresolved_first_sample (e : Env) (fuel : ℕ)
    (pre post : List NuScene) (sc : NuScene)
    (hnone : e.sampleAt sc.first_sample_token = none) :
    importDb fuel { scenes := pre ++ sc :: post, env := e } = (do
      let a ← importScenes e fuel pre
      let b ← importScenes e fuel post
      pure (a ++ (sc.token, []) :: b)) := by
  have hsc := processChain_none e fuel sc.first_sample_token 0 hnone
  show importScenes e fuel (pre ++ sc :: post) = _
  rw [importScenes_append]
  cases ha : importScenes e fuel pre <;>
    cases hb : importScenes e fuel post <;>
    simp [importScenes, hsc, hb, Bind.bind, Except.bind, Pure.pure,
      Except.pure]

/-- A scene whose first sample token resolves nowhere, for the C9 witness. -/
def sceneUnres : NuScene := ⟨"sc9", "n", "d", "log", 0, "missing", "missing"⟩

/-- C9 witness: a single such scene; import succeeds with one entry holding
the empty frame sequence. -/
theorem import_unresolved_first_sample_witness :
    importDb 3 { scenes := [] ++ sceneUnres :: [], env := dbChain2.env } = (do
      let a ← importScenes dbChain2.env 3 []
      let b ← importScenes dbChain2.env 3 []
      pure (a ++ (sceneUnres.token, []) :: b)) :=
  import_unresolved_first_sample dbChain2.env 3 [] [] sceneUnres (by rfl)

/-! ## Claims C1 and C6: unresolved references and missing intrinsics panic -/

theorem unwrapE_eq_error {ε α : Type} {o : Option α} {k k2 : ε}
    (h : unwrapE o k = .error k2) : k2 = k := by
  cases o with
  | some a => simp [unwrapE] at h
  | none =>
    cases h
    rfl

theorem unwrapE_eq_ok {ε α : Type} {o : Option α} {k : ε} {a : α}
    (h : unwrapE o k = .ok a) : o = some a := by
  cases o with
  | some b =>
    cases h
    rfl
  | none => simp [unwrapE] at h

/-- A dataset in which the single data record's `calibrated_sensor_token`
resolves to no calibration record. -/
def dbMissingCal : Database :=
  { scenes := [⟨"scene1", "n", "d", "log", 1, "s1", "s1"⟩]
    env :=
      { samples := [⟨"s1", 0, "scene1", "", ""⟩]
        annotations := []
        datas := [⟨"d1", true, 0, none, none, "jpg", "f.jpg", "ego1", "s1",
          "nope", "", ""⟩]
        instances := []
        categories := []
        egos := []
        calibrations := []
        sensors := [sensorLidar] } }

/-- C1: on a dataset whose data record references a non-existent
calibration token, `import` reaches `calibrations.get(..).unwrap()` with
`None` and panics (embedded: the `missingCalibration` panic outcome) — it
does not surface a typed `UnresolvedReferenceError` result.  The same
`unwrap` pattern guards the sensor, ego-pose, instance and category
lookups (`processData`, `annotationEntry`). -/
theorem import_unresolved_calibration_panics :
    importDb 2 dbMissingCal = Except.error PanicKind.missingCalibration :=
  rfl

/-- A camera-channel sensor for the failing datasets. -/
def sensorCamFront : NuSensor := ⟨"sen1", "camera", "CAM_FRONT"⟩

/-- A calibration for the camera sensor carrying no intrinsic matrix. -/
def calCamNoIntrinsic : NuCalibration :=
  ⟨"cal1", "sen1", ⟨1, 0, 0, 0⟩, ⟨0, 0, 0⟩, none⟩

/-- An annotation attached to sample `s1`. -/
def annS1 : NuAnnotation :=
  ⟨"a1", "s1", "inst1", [], "1", ⟨0, 0, 10⟩, 1, 1, 1, ⟨1, 0, 0, 0⟩, 0, 0,
   "", ""⟩

/-- A dataset whose camera data record has a calibration without an
intrinsic matrix, with an annotation present on the sample. -/
def dbMissingIntrinsic : Database :=
  { scenes := [⟨"scene1", "n", "d", "log", 1, "s1", "s1"⟩]
    env :=
      { samples := [⟨"s1", 0, "scene1", "", ""⟩]
        annotations := [annS1]
        datas := [⟨"d1", true, 0, some 1600, some 900, "jpg", "f.jpg",
          "ego1", "s1", "cal1", "", ""⟩]
        instances := []
        categories := []
        egos := [⟨"ego1", ⟨1, 0, 0, 0⟩, ⟨0, 0, 0⟩, 0⟩]
        calibrations := [calCamNoIntrinsic]
        sensors := [sensorCamFront] } }

/-- C6: on a dataset whose camera-channel data record refers to a
calibration with no intrinsic matrix (and whose sample has annotations),
`import` reaches `calibration.camera_intrinsic.unwrap()` with `None` and
panics (embedded: the `missingIntrinsic` panic outcome) — it does not
report a per-sensor skippable `MissingIntrinsicError`. -/
theorem import_missing_intrinsic_panics :
    importDb 2 dbMissingIntrinsic = Except.error PanicKind.missingIntrinsic :=
  rfl

/-! ## Claim C10: the width/height unwraps -/

/-- The precondition's trigger: a data record whose sensor channel passes
the camera allow-list (through its calibration's sensor) and whose sample
token has at least one annotation. -/
def camDataWithAnns (e : Env) (d : NuData) : Bool :=
  (match e.calibrationAt d.calibrated_sensor_token with
   | none => false
   | some cal =>
     match e.sensorAt cal.sensor_token with
     | none => false
     | some sn => (channelFn sn.channel).isSome) &&
  !(e.annsOf d.sample_token).isEmpty

theorem annotationEntry_no_wh_panic (d : NuData) (ego : NuEgo)
    (cal : NuCalibration) (viewport : Mat3)
    (instances : String → Option NuInstance)
    (categories : String → Option NuCategory) (a : NuAnnotation)
    (k : PanicKind)
    (hw : d.width.isSome = true) (hh : d.height.isSome = true)
    (h : annotationEntry d ego cal viewport instances categories a =
      .error k) :
    k ≠ .missingWidth ∧ k ≠ .missingHeight := by
  simp only [annotationEntry] at h
  rw [bind_eq_error] at h
  rcases h with h | ⟨inst, -, h⟩
  · have hk := unwrapE_eq_error h
    subst hk
    exact ⟨by decide, by decide⟩
  · rw [bind_eq_error] at h
    rcases h with h | ⟨label, -, h⟩
    · have hk := unwrapE_eq_error h
      subst hk
      exact ⟨by decide, by decide⟩
    · obtain ⟨w, hww⟩ := Option.isSome_iff_exists.mp hw
      obtain ⟨hv, hhv⟩ := Option.isSome_iff_exists.mp hh
      rw [bind_eq_error] at h
      rcases h with h | ⟨w2, -, h⟩
      · rw [hww] at h
        simp [unwrapE] at h
      · rw [bind_eq_error] at h
        rcases h with h | ⟨h2, -, h⟩
        · rw [hhv] at h
          simp [unwrapE] at h
        · split at h <;> simp [Pure.pure, Except.pure] at h

theorem annotationEntries_no_wh_panic (d : NuData) (ego : NuEgo)
    (cal : NuCalibration) (viewport : Mat3)
    (instances : String → Option NuInstance)
    (categories : String → Option NuCategory)
    (hw : d.width.isSome = true) (hh : d.height.isSome = true) :
    ∀ (anns : List NuAnnotation) (k : PanicKind),
      annotationEntries d ego cal viewport instances categories anns =
        .error k →
      k ≠ .missingWidth ∧ k ≠ .missingHeight := by
  intro anns
  induction anns with
  | nil =>
    intro k h
    cases h
  | cons a rest ih =>
    intro k h
    unfold annotationEntries at h
    rw [bind_eq_error] at h
    rcases h with h | ⟨entry, -, h⟩
    · exact annotationEntry_no_wh_panic d ego cal viewport instances
        categories a k hw hh h
    · rw [bind_eq_error] at h
      rcases h with h | ⟨others, -, h⟩
      · exact ih k h
      · simp [Pure.pure, Except.pure] at h

theorem annotationsFn_no_wh_panic (d : NuData) (ego : NuEgo)
    (cal : NuCalibration) (anns : List NuAnnotation)
    (instances : String → Option NuInstance)
    (categories : String → Option NuCategory) (k : PanicKind)
    (hw : d.width.isSome = true) (hh : d.height.isSome = true)
    (h : annotationsFn d ego cal anns instances categories = .error k) :
    k ≠ .missingWidth ∧ k ≠ .missingHeight := by
  simp only [annotationsFn] at h
  rw [bind_eq_error] at h
  rcases h with h | ⟨viewport, -, h⟩
  · have hk := unwrapE_eq_error h
    subst hk
    exact ⟨by decide, by decide⟩
  · exact annotationEntries_no_wh_panic d ego cal viewport instances
      categories hw hh anns k h

theorem processData_no_wh_panic (e : Env) (s : NuSample) (d : NuData)
    (k : PanicKind)
    (hst : d.sample_token = s.token)
    (hP : camDataWithAnns e d = true →
      d.width.isSome = true ∧ d.height.isSome = true)
    (h : processData e s d = .error k) :
    k ≠ .missingWidth ∧ k ≠ .missingHeight := by
  simp only [processData] at h
  rw [bind_eq_error] at h
  rcases h with h | ⟨cal, hcal, h⟩
  · have hk := unwrapE_eq_error h
    subst hk
    exact ⟨by decide, by decide⟩
  · rw [bind_eq_error] at h
    rcases h with h | ⟨sn, hsn, h⟩
    · have hk := unwrapE_eq_error h
      subst hk
      exact ⟨by decide, by decide⟩
    · have hcal2 := unwrapE_eq_ok hcal
      have hsn2 := unwrapE_eq_ok hsn
      cases hch : channelFn sn.channel with
      | none =>
        rw [hch] at h
        dsimp only at h
        simp [Pure.pure, Except.pure] at h
      | some ch =>
        rw [hch] at h
        dsimp only at h
        split at h
        · simp [Pure.pure, Except.pure] at h
        · rename_i hanns
          have htrig : camDataWithAnns e d = true := by
            simp only [camDataWithAnns, hcal2, hsn2, hch, hst]
            simp [hanns]
          obtain ⟨hw, hh⟩ := hP htrig
          rw [bind_eq_error] at h
          rcases h with h | ⟨ego, -, h⟩
          · have hk := unwrapE_eq_error h
            subst hk
            exact ⟨by decide, by decide⟩
          · rw [bind_eq_error] at h
            rcases h with h | ⟨recAnns, -, h⟩
            · exact annotationsFn_no_wh_panic d ego cal (e.annsOf s.token)
                e.instanceAt e.categoryAt k hw hh h
            · simp [Pure.pure, Except.pure] at h

theorem processDatas_no_wh_panic (e : Env) (s : NuSample) :
    ∀ (ds : List NuData) (k : PanicKind),
      (∀ d ∈ ds, d.sample_token = s.token) →
      (∀ d ∈ ds, camDataWithAnns e d = true →
        d.width.isSome = true ∧ d.height.isSome = true) →
      processDatas e s ds = .error k →
      k ≠ .missingWidth ∧ k ≠ .missingHeight := by
  intro ds
  induction ds with
  | nil =>
    intro k _ _ h
    cases h
  | cons d rest ih =>
    intro k hst hP h
    unfold processDatas at h
    rw [bind_eq_error] at h
    rcases h with h | ⟨o, -, h⟩
    · exact processData_no_wh_panic e s d k (hst d (by simp))
        (hP d (by simp)) h
    · rw [bind_eq_error] at h
      rcases h with h | ⟨others, -, h⟩
      · exact ih k (fun x hx => hst x (by simp [hx]))
          (fun x hx => hP x (by simp [hx])) h
      · simp [Pure.pure, Except.pure] at h

theorem processSample_no_wh_panic (e : Env) (s : NuSample) (idx : ℕ)
    (k : PanicKind)
    (hP : ∀ d ∈ e.datas, camDataWithAnns e d = true →
      d.width.isSome = true ∧ d.height.isSome = true)
    (h : processSample e s idx = .error k) :
    k ≠ .missingWidth ∧ k ≠ .missingHeight := by
  simp only [processSample] at h
  split at h
  · cases h
    exact ⟨by decide, by decide⟩
  · rw [bind_eq_error] at h
    rcases h with h | ⟨recs, -, h⟩
    · refine processDatas_no_wh_panic e s (e.datasOf s.token) k ?_ ?_ h
      · intro d hd
        have := List.mem_filter.mp hd
        exact eq_of_beq this.2
      · intro d hd
        exact hP d (List.mem_filter.mp hd).1
    · simp [Pure.pure, Except.pure] at h

theorem processChain_no_wh_panic (e : Env) (fuel : ℕ)
    (hP : ∀ d ∈ e.datas, camDataWithAnns e d = true →
      d.width.isSome = true ∧ d.height.isSome = true) :
    ∀ (tok : String) (idx : ℕ) (k : PanicKind),
      processChain e fuel tok idx = .error k →
      k ≠ .missingWidth ∧ k ≠ .missingHeight := by
  induction fuel with
  | zero =>
    intro tok idx k h
    cases h
  | succ n ih =>
    intro tok idx k h
    unfold processChain at h
    cases hs : e.sampleAt tok with
    | none =>
      rw [hs] at h
      cases h
    | some s =>
      rw [hs] at h
      rw [bind_eq_error] at h
      rcases h with h | ⟨fr, -, h⟩
      · exact processSample_no_wh_panic e s idx k hP h
      · rw [bind_eq_error] at h
        rcases h with h | ⟨rest, -, h⟩
        · exact ih s.next (idx + 1) k h
        · simp [Pure.pure, Except.pure] at h

/-- A dataset violating the precondition: the camera data record carries no
width, and its sample has an annotation whose instance and category
resolve. -/
def dbMissingWidth : Database :=
  { scenes := [⟨"scene1", "n", "d", "log", 1, "s1", "s1"⟩]
    env :=
      { samples := [⟨"s1", 0, "scene1", "", ""⟩]
        annotations := [annS1]
        datas := [⟨"d1", true, 0, none, some 900, "jpg", "f.jpg", "ego1",
          "s1", "cal1", "", ""⟩]
        instances := [⟨"inst1", "cat1", 1, "a1", "a1"⟩]
        categories := [⟨"cat1", "vehicle.car"⟩]
        egos := [⟨"ego1", ⟨1, 0, 0, 0⟩, ⟨0, 0, 0⟩, 0⟩]
        calibrations := [⟨"cal1", "sen1", ⟨1, 0, 0, 0⟩, ⟨0, 0, 0⟩,
          some ⟨1, 0, 0, 0, 1, 0, 0, 0, 1⟩⟩]
        sensors := [sensorCamFront] } }

/-- C10: the annotation-projection step unconditionally unwraps the data
record's optional width and height.  (a) For every dataset satisfying the
precondition — every data record whose channel passes the camera allow-list
and whose sample has at least one annotation carries both width and height
— no outcome of import is a width/height unwrap panic.  (b) On a dataset
violating the precondition (a camera data record with `width = None` and a
non-empty annotation set), import panics at the width unwrap instead of
producing a `DetectionRecord` without an image reference. -/
theorem import_width_height_unwraps (db : Database) (fuel : ℕ)
    (hP : ∀ d ∈ db.env.datas, camDataWithAnns db.env d = true →
      d.width.isSome = true ∧ d.height.isSome = true) :
    (∀ k, importDb fuel db = .error k →
      k ≠ .missingWidth ∧ k ≠ .missingHeight) ∧
    importDb 2 dbMissingWidth = Except.error PanicKind.missingWidth := by
  refine ⟨?_, rfl⟩
  have hmain : ∀ (scenes : List NuScene) (k : PanicKind),
      importScenes db.env fuel scenes = .error k →
      k ≠ .missingWidth ∧ k ≠ .missingHeight := by
    intro scenes
    induction scenes with
    | nil =>
      intro k h
      cases h
    | cons sc rest ih =>
      intro k h
      unfold importScenes at h
      rw [bind_eq_error] at h
      rcases h with h | ⟨frames, -, h⟩
      · exact processChain_no_wh_panic db.env fuel hP
          sc.first_sample_token 0 k h
      · rw [bind_eq_error] at h
        rcases h with h | ⟨oRest, -, h⟩
        · exact ih k h
        · simp [Pure.pure, Except.pure] at h
  exact fun k => hmain db.scenes k

/-- C10 witness: the no-panic direction applied to the missing-calibration
dataset (which satisfies the precondition vacuously and panics at the
calibration lookup, a panic kind other than the width/height unwraps). -/
theorem import_width_height_unwraps_witness :
    (PanicKind.missingCalibration ≠ PanicKind.missingWidth ∧
      PanicKind.missingCalibration ≠ PanicKind.missingHeight) ∧
    importDb 2 dbMissingWidth = Except.error PanicKind.missingWidth :=
  ⟨(import_width_height_unwraps dbMissingCal 2 (by decide)).1
      PanicKind.missingCalibration (by rfl),
   (import_width_height_unwraps dbMissingCal 2 (by decide)).2⟩

/-! ## Claim C5: decoding the camera-intrinsic field -/

/-- C5 counterexample: a non-array JSON value decodes successfully to an
absent intrinsic (the `_ => None` arm), and a malformed non-empty array
panics at `row.as_array().unwrap()` — neither outcome is the typed
ParseError failure the claim requires for every non-empty, non-3×3 shape. -/
theorem deserialize_intrinsic_counterexample :
    deserialize_intrinsic (Json.num 5) = Except.ok none ∧
    deserialize_intrinsic (Json.arr [Json.num 1]) =
      Except.error DeserPanic.rowNotArray :=
  ⟨rfl, rfl⟩

/-- Spec-side description of a well-formed intrinsic row: an array of
exactly three JSON numbers. -/
def wfRow : Json → Bool
  | .arr [.num _, .num _, .num _] => true
  | _ => false

/-- Spec-side description of a well-formed 3×3 intrinsic: exactly three
well-formed rows. -/
def wf3x3 : List Json → Bool
  | [r1, r2, r3] => wfRow r1 && wfRow r2 && wfRow r3
  | _ => false

/-- The numeric triple of a well-formed row (junk on other shapes). -/
def rowTriple : Json → ℚ × ℚ × ℚ
  | .arr [.num a, .num b, .num c] => (a, b, c)
  | _ => (0, 0, 0)

/-- The matrix held by a well-formed 3×3 intrinsic array (junk on other
shapes). -/
def matOfRows (rows : List Json) : Mat3 :=
  match rows.map rowTriple with
  | [(a, b, c), (d, e, f), (g, h, i)] => ⟨a, b, c, d, e, f, g, h, i⟩
  | _ => ⟨0, 0, 0, 0, 0, 0, 0, 0, 0⟩

theorem wfRow_shape (r : Json) (h : wfRow r = true) :
    ∃ a b c, r = .arr [.num a, .num b, .num c] := by
  unfold wfRow at h
  split at h
  · rename_i a b c
    exact ⟨a, b, c, rfl⟩
  · cases h

theorem asF64_eq_some {e : Json} {n : ℚ} (h : e.asF64 = some n) :
    e = .num n := by
  cases e <;> simp_all [Json.asF64]

theorem parseEntries_ok :
    ∀ (es : List Json) (ns : List ℚ),
      parseRow.parseEntries es = .ok ns → es = ns.map Json.num := by
  intro es
  induction es with
  | nil =>
    intro ns h
    cases h
    rfl
  | cons e t ih =>
    intro ns h
    unfold parseRow.parseEntries at h
    rw [bind_eq_ok] at h
    obtain ⟨n, hn, h⟩ := h
    rw [bind_eq_ok] at h
    obtain ⟨ns2, hns2, h⟩ := h
    cases h
    rw [asF64_eq_some (unwrapE_eq_ok hn), ih ns2 hns2]
    rfl

theorem parseRow_ok_shape (r : Json) (t : ℚ × ℚ × ℚ)
    (h : parseRow r = .ok t) : wfRow r = true := by
  unfold parseRow at h
  rw [bind_eq_ok] at h
  obtain ⟨es, hes, h⟩ := h
  rw [bind_eq_ok] at h
  obtain ⟨ns, hns, h⟩ := h
  have hesA : r.asArray = some es := unwrapE_eq_ok hes
  have hmap := parseEntries_ok es ns hns
  have hr : r = .arr es := by
    cases r <;> simp_all [Json.asArray]
  subst hr
  subst hmap
  match ns, h with
  | [a, b, c], _ => rfl

theorem parseRows_ok_shape :
    ∀ (rows : List Json) (rs : List (ℚ × ℚ × ℚ)),
      parseRows rows = .ok rs →
      rs.length = rows.length ∧ ∀ r ∈ rows, wfRow r = true := by
  intro rows
  induction rows with
  | nil =>
    intro rs h
    cases h
    simp
  | cons r t ih =>
    intro rs h
    unfold parseRows at h
    rw [bind_eq_ok] at h
    obtain ⟨tr, htr, h⟩ := h
    rw [bind_eq_ok] at h
    obtain ⟨ts, hts, h⟩ := h
    cases h
    obtain ⟨hlen, hall⟩ := ih ts hts
    refine ⟨by simp [hlen], ?_⟩
    intro x hx
    simp only [List.mem_cons] at hx
    cases hx with
    | inl heq => exact heq ▸ parseRow_ok_shape r tr htr
    | inr hmem => exact hall x hmem

/-- C5 (amended): an empty array decodes to an absent intrinsic; a 3×3
numeric array decodes to the corresponding matrix; a non-array value
decodes successfully to an absent intrinsic (it does not fail); and every
other non-empty array shape (non-array row, non-numeric entry, wrong row
length, wrong row count) causes an `unwrap` panic — not a typed
ParseError. -/
theorem deserialize_intrinsic_amended (v : Json) (rows : List Json) :
    (v.asArray = none → deserialize_intrinsic v = .ok none) ∧
    (deserialize_intrinsic (Json.arr []) = .ok none) ∧
    (wf3x3 rows = true →
      deserialize_intrinsic (Json.arr rows) = .ok (some (matOfRows rows))) ∧
    (rows ≠ [] → wf3x3 rows = false →
      ∃ err, deserialize_intrinsic (Json.arr rows) = .error err) := by
  refine ⟨?_, rfl, ?_, ?_⟩
  · intro h
    cases v <;> simp_all [Json.asArray, deserialize_intrinsic, Pure.pure,
      Except.pure]
  · intro h
    unfold wf3x3 at h
    split at h
    · rename_i r1 r2 r3
      simp only [Bool.and_eq_true] at h
      obtain ⟨⟨h1, h2⟩, h3⟩ := h
      obtain ⟨a1, b1, c1, rfl⟩ := wfRow_shape r1 h1
      obtain ⟨a2, b2, c2, rfl⟩ := wfRow_shape r2 h2
      obtain ⟨a3, b3, c3, rfl⟩ := wfRow_shape r3 h3
      rfl
    · cases h
  · intro hne hwf
    cases rows with
    | nil => exact absurd rfl hne
    | cons r t =>
      cases hp : parseRows (r :: t) with
      | error err =>
        refine ⟨err, ?_⟩
        simp [deserialize_intrinsic, hp, Bind.bind, Except.bind]
      | ok rs =>
        obtain ⟨hlen, hall⟩ := parseRows_ok_shape (r :: t) rs hp
        match rs, hlen with
        | [t1, t2, t3], hlen =>
          exfalso
          match r, t, hlen with
          | r, [r2, r3], _ =>
            have h1 := hall r (by simp)
            have h2 := hall r2 (by simp)
            have h3 := hall r3 (by simp)
            simp [wf3x3, h1, h2, h3] at hwf
        | [], hlen => simp at hlen
        | [t1], hlen =>
          refine ⟨.wrongRowCount, ?_⟩
          simp [deserialize_intrinsic, hp, Bind.bind, Except.bind]
        | [t1, t2], hlen =>
          refine ⟨.wrongRowCount, ?_⟩
          simp [deserialize_intrinsic, hp, Bind.bind, Except.bind]
        | t1 :: t2 :: t3 :: t4 :: ts, hlen =>
          refine ⟨.wrongRowCount, ?_⟩
          simp [deserialize_intrinsic, hp, Bind.bind, Except.bind]

/-- A well-formed 3×3 intrinsic array for the C5 witness. -/
def rows3x3 : List Json :=
  [.arr [.num 1266, .num 0, .num 816],
   .arr [.num 0, .num 1266, .num 491],
   .arr [.num 0, .num 0, .num 1]]

/-- C5 witness: the amended theorem applied at a non-array value and at the
concrete well-formed 3×3 array. -/
theorem deserialize_intrinsic_amended_witness :
    deserialize_intrinsic (Json.arr rows3x3) =
      .ok (some (matOfRows rows3x3)) :=
  (deserialize_intrinsic_amended (Json.num 7) rows3x3).2.2.1 (by rfl)
